import Mathlib

/-!
# Verification of the `norman` in-memory record store

This file is a shallow embedding of the core of the `norman` library
(`norman/_store.py`, `norman/_field.py`, `norman/_table.py`,
`norman/_query.py`) into Lean 4, together with theorems settling the
stated properties of the specification against the code.

Modelling conventions:

* Python cell values are modelled by the inductive type `PyVal`, covering
  the types the default key function recognises (real numbers as `vInt`
  and `vBool`, `str`, `bytes`) plus tuples (`vPair`, used by key
  functions), and the `NotSet` sentinel.
* Python object identity (`is`) on these immutable values is modelled by
  structural equality (CPython interns small ints and short strings;
  crucially `True is 1` is `False` even though `True == 1`, which the
  model preserves since `vBool true` and `vInt 1` are distinct terms).
  Python value equality (`==`) is the separate function `pyEq`, under
  which booleans compare numerically equal to integers.
* Exceptions are modelled by `PyErr`; fallible code returns
  `Except PyErr α`, or for stateful operations `σ × Option PyErr`, where
  the returned state is the state at the moment the exception escaped
  (Python mutations performed before a raise are kept).
* Records are identity-compared opaque objects (`Table.__eq__` is
  `self is other`), modelled as `Rec := Nat`.
* Python `dict`s are modelled as insertion-ordered association lists with
  unique keys (`lookupA`/`setA`); `defaultdict(list)` as an association
  list from hash keys to buckets.  Hash buckets are keyed by `hkey`,
  which canonicalises values so that `pyEq`-equal values share a bucket
  (as equal Python values have equal hashes); accidental hash collisions
  between unequal values only merge buckets, which is unobservable in
  every Index operation because buckets are always filtered by equality.
-/

namespace Norman

/-- Python exception classes relevant to the embedded code. `otherError`
stands for any exception class not otherwise listed (e.g. a custom error
raised by a user key function or validator). -/
inductive PyErr where
  | typeError
  | valueError
  | keyError
  | attributeError
  | runtimeError
  | assertionError
  | validationError
  | otherError
  deriving DecidableEq, Repr

/-- Python values stored in table cells and produced by key functions:
real numbers (`vInt`, `vBool`), strings, bytes, 2-tuples, and the
`NotSet` sentinel (`norman._field.NotSet`). -/
inductive PyVal where
  | vInt : Int → PyVal
  | vBool : Bool → PyVal
  | vStr : String → PyVal
  | vBytes : List Nat → PyVal
  | vPair : PyVal → PyVal → PyVal
  | vNotSet : PyVal
  deriving DecidableEq, Repr

open PyVal

/-- Numeric value of a Python real in the model (`True == 1`, `False == 0`). -/
def numVal : PyVal → Option Int
  | vInt n => some n
  | vBool b => some (if b then 1 else 0)
  | _ => none

/-- Python `==` on modelled values: numbers compare numerically (so
`True == 1`), strings/bytes structurally, tuples elementwise, `NotSet`
only to itself (its class defines no `__eq__`, so identity applies);
values of unrelated types compare unequal rather than raising. -/
def pyEq : PyVal → PyVal → Bool
  | vStr s, vStr t => s = t
  | vBytes s, vBytes t => s = t
  | vPair a b, vPair c d => pyEq a c && pyEq b d
  | vNotSet, vNotSet => true
  | a, b =>
    match numVal a, numVal b with
    | some m, some n => m = n
    | _, _ => false

/-- Lexicographic strict order on character lists, by code point — the
comparison Python uses for `str < str`. -/
def charsLt : List Char → List Char → Bool
  | [], [] => false
  | [], _ :: _ => true
  | _ :: _, [] => false
  | a :: as, b :: bs =>
    if a = b then charsLt as bs else a.toNat < b.toNat

/-- Lexicographic strict order on byte lists (`bytes < bytes`). -/
def bytesLt : List Nat → List Nat → Bool
  | [], [] => false
  | [], _ :: _ => true
  | _ :: _, [] => false
  | a :: as, b :: bs =>
    if a = b then bytesLt as bs else a < b

/-- Python `<` on modelled values: numbers numerically, strings and bytes
lexicographically, tuples lexicographically (first components compared
with `==`, per CPython tuple comparison); any other combination raises
`TypeError` (Python 3 refuses cross-type order comparisons). -/
def pyLt : PyVal → PyVal → Except PyErr Bool
  | vStr s, vStr t => .ok (charsLt s.data t.data)
  | vBytes s, vBytes t => .ok (bytesLt s t)
  | vPair a b, vPair c d =>
    if pyEq a c then pyLt b d else pyLt a c
  | a, b =>
    match numVal a, numVal b with
    | some m, some n => .ok (decide (m < n))
    | _, _ => .error .typeError

/-- Canonical dictionary key standing for `hash(value)`: `pyEq`-equal
values are mapped to the same key (equal Python values hash equal). All
modelled values are hashable, so the `id(value)` fallback of the code is
never taken for them. -/
def hkey : PyVal → PyVal
  | vBool b => vInt (if b then 1 else 0)
  | vPair a b => vPair (hkey a) (hkey b)
  | v => v

/-- Records are opaque identity-compared objects (`Table.__eq__` returns
`self is other`); the model names them by numeric identity. -/
def Rec := Nat
  deriving DecidableEq, Repr

instance : OfNat Rec n := ⟨(n : Nat)⟩

/-- A field key function (`Field.key`), an arbitrary fallible Python
callable from a cell value to a sort key. -/
def KeyFn := PyVal → Except PyErr PyVal

/-- `norman._field._key`, the default key function: ranks recognised
types (`numbers.Real`, `str`, `bytes`) and raises `TypeError` on
anything else. -/
def defaultKey : KeyFn
  | vInt n => .ok (vPair (vStr "0Real") (vInt n))
  | vBool b => .ok (vPair (vStr "0Real") (vBool b))
  | vStr s => .ok (vPair (vStr "1str") (vStr s))
  | vBytes s => .ok (vPair (vStr "2bytes") (vBytes s))
  | _ => .error .typeError

/-- `bisect.bisect_right` over a list whose element comparisons may
raise, transcribing the stdlib loop: while `lo < hi`, probe
`mid = (lo+hi)/2` and test `x < a[mid]`.  The structural `fuel`
argument is initialised to `hi - lo`; each iteration shrinks the
half-open search window by at least one, so the window is always at most
`fuel` wide and the fuel-exhausted case coincides with the loop's
`lo ≥ hi` exit (both return `lo`). -/
def bisectRightAux (a : List PyVal) (x : PyVal) :
    Nat → Nat → Nat → Except PyErr Nat
  | 0, lo, _ => .ok lo
  | fuel + 1, lo, hi =>
    if lo < hi then
      let mid := (lo + hi) / 2
      match pyLt x (a.getD mid vNotSet) with
      | .error e => .error e
      | .ok true => bisectRightAux a x fuel lo mid
      | .ok false => bisectRightAux a x fuel (mid + 1) hi
    else
      .ok lo

/-- `bisect.bisect_left`: probes test `a[mid] < x`; fuel as in
`bisectRightAux`. -/
def bisectLeftAux (a : List PyVal) (x : PyVal) :
    Nat → Nat → Nat → Except PyErr Nat
  | 0, lo, _ => .ok lo
  | fuel + 1, lo, hi =>
    if lo < hi then
      let mid := (lo + hi) / 2
      match pyLt (a.getD mid vNotSet) x with
      | .error e => .error e
      | .ok true => bisectLeftAux a x fuel (mid + 1) hi
      | .ok false => bisectLeftAux a x fuel lo mid
    else
      .ok lo

def bisectRight (a : List PyVal) (x : PyVal) : Except PyErr Nat :=
  bisectRightAux a x a.length 0 a.length

def bisectLeft (a : List PyVal) (x : PyVal) : Except PyErr Nat :=
  bisectLeftAux a x a.length 0 a.length

/-- Association-list lookup, modelling Python `dict` access (keys are
unique; insertion order preserved elsewhere). -/
def lookupA {α β : Type} [DecidableEq α] : List (α × β) → α → Option β
  | [], _ => none
  | (k, v) :: rest, key => if k = key then some v else lookupA rest key

/-- `dict` item assignment: update in place if the key exists, else
append (preserving insertion order). -/
def setA {α β : Type} [DecidableEq α] : List (α × β) → α → β → List (α × β)
  | [], key, v => [(key, v)]
  | (k, w) :: rest, key, v =>
    if k = key then (k, v) :: rest else (k, w) :: setA rest key v

/-- Remove a key from a `dict` (`del d[k]`). -/
def delA {α β : Type} [DecidableEq α] : List (α × β) → α → List (α × β)
  | [], _ => []
  | (k, w) :: rest, key => if k = key then rest else (k, w) :: delA rest key

/-- An unordered bucket entry: the `(value, record)` pair appended by
`Index.insert`'s fallback branch (for the unset bucket the value slot
holds `NotSet`). -/
def Entry := PyVal × Rec
  deriving DecidableEq, Repr

/-- `norman._store.Index`: parallel sorted arrays `_ordered = ([], [])`
of keys and records, and the `_unordered` defaultdict from hash keys to
lists of `(value, record)` pairs (the `NotSet` bucket is keyed by the
sentinel itself). -/
structure Index where
  okeys : List PyVal
  orecs : List Rec
  unordered : List (PyVal × List Entry)
  deriving DecidableEq, Repr

namespace Index

/-- `Index.clear` / freshly constructed index. -/
def empty : Index := ⟨[], [], []⟩

/-- `defaultdict(list)` read access: missing keys give the empty list. -/
def dGet (u : List (PyVal × List Entry)) (k : PyVal) : List Entry :=
  (lookupA u k).getD []

/-- `self._unordered[k].append(e)` (creating the bucket if absent). -/
def dAppend (u : List (PyVal × List Entry)) (k : PyVal) (e : Entry) :
    List (PyVal × List Entry) :=
  setA u k (dGet u k ++ [e])

/-- Python tuple equality of two `(value, record)` entries, as used by
`list.remove` on an unordered bucket. -/
def entryEq (a b : Entry) : Bool :=
  pyEq a.1 b.1 && a.2 = b.2

/-- `list.remove(e)`: drop the first element comparing equal to `e`;
raises `ValueError` when no element matches. -/
def listRemove (e : Entry) : List Entry → Except PyErr (List Entry)
  | [] => .error .valueError
  | x :: rest =>
    if entryEq x e then .ok rest
    else do
      let rest' ← listRemove e rest
      pure (x :: rest')

/-- `self._unordered[k].remove(e)` followed by deleting the bucket when
it becomes empty (as in `Index.remove`). -/
def dRemove (u : List (PyVal × List Entry)) (k : PyVal) (e : Entry) :
    Except PyErr (List (PyVal × List Entry)) := do
  let bucket' ← listRemove e (dGet u k)
  if bucket'.isEmpty then pure (delA u k)
  else pure (setA u k bucket')

/-- `Index.insert(value, record)`: the `NotSet` bucket is special-cased;
otherwise `self.field.key(value)` and the `bisect_right` probe run under
`try`, and a `TypeError` or `ValueError` from either routes the value to
the unordered bucket keyed by its hash; any other exception propagates.
On success the key and record are spliced into the sorted arrays. -/
def insert (kf : KeyFn) (idx : Index) (value : PyVal) (record : Rec) :
    Except PyErr Index :=
  if value = vNotSet then
    .ok { idx with unordered := dAppend idx.unordered vNotSet (vNotSet, record) }
  else
    match (do
        let key ← kf value
        let i ← bisectRight idx.okeys key
        pure (key, i) : Except PyErr (PyVal × Nat)) with
    | .ok (key, i) =>
      .ok { idx with
            okeys := idx.okeys.take i ++ key :: idx.okeys.drop i
            orecs := idx.orecs.take i ++ record :: idx.orecs.drop i }
    | .error e =>
      if e = .typeError ∨ e = .valueError then
        .ok { idx with unordered := dAppend idx.unordered (hkey value) (value, record) }
      else
        .error e

/-- `Index.remove(value, record)`: mirrors `insert`'s classification; in
the ordered branch `self._ordered[1][i:j].index(record)` raises
`ValueError` when the record is not in the equal-key span; in the
unordered branch `list.remove` raises `ValueError` when the entry is
absent. -/
def remove (kf : KeyFn) (idx : Index) (value : PyVal) (record : Rec) :
    Except PyErr Index :=
  if value = vNotSet then do
    let u ← dRemove idx.unordered vNotSet (vNotSet, record)
    pure { idx with unordered := u }
  else
    match (do
        let key ← kf value
        let i ← bisectLeft idx.okeys key
        let j ← bisectRight idx.okeys key
        pure (i, j) : Except PyErr (Nat × Nat)) with
    | .ok (i, j) =>
      match ((idx.orecs.drop i).take (j - i)).findIdx? (· = record) with
      | none => .error .valueError
      | some k =>
        let n := k + i
        .ok { idx with
              okeys := idx.okeys.eraseIdx n
              orecs := idx.orecs.eraseIdx n }
    | .error e =>
      if e = .typeError ∨ e = .valueError then do
        let u ← dRemove idx.unordered (hkey value) (value, record)
        pure { idx with unordered := u }
      else
        .error e

/-- `Index.__eq__(value)` forced to a list: the `NotSet` bucket for the
sentinel; otherwise the equal-key span of the ordered arrays, or, when
the key computation or a bisect probe raises `TypeError`/`ValueError`,
the hash bucket filtered by `==` on the stored value. -/
def eqList (kf : KeyFn) (idx : Index) (value : PyVal) :
    Except PyErr (List Rec) :=
  if value = vNotSet then
    .ok ((dGet idx.unordered vNotSet).map (·.2))
  else
    match (do
        let key ← kf value
        let i ← bisectLeft idx.okeys key
        let j ← bisectRight idx.okeys key
        pure (i, j) : Except PyErr (Nat × Nat)) with
    | .ok (i, j) => .ok ((idx.orecs.drop i).take (j - i))
    | .error e =>
      if e = .typeError ∨ e = .valueError then
        .ok ((dGet idx.unordered (hkey value)).filterMap
          (fun p => if pyEq p.1 value then some p.2 else none))
      else
        .error e

/-- `Index.__gt__(value)` forced to a list: `key` and the bisect run with
no exception handling (errors propagate), then the tail of the ordered
records past the right bisection point. -/
def gtList (kf : KeyFn) (idx : Index) (value : PyVal) :
    Except PyErr (List Rec) := do
  let key ← kf value
  let i ← bisectRight idx.okeys key
  pure (idx.orecs.drop i)

end Index

/-- `norman._field.Field`, reduced to the attributes the Store/Index/Table
code consults: the assigned name, the default value, the key function,
and the `unique`/`readonly` flags and validator list. -/
structure Field where
  name : String
  default : PyVal := PyVal.vNotSet
  keyf : KeyFn := defaultKey
  unique : Bool := false
  readonly : Bool := false
  validators : List (PyVal → Except PyErr PyVal) := []

/-- Placeholder for out-of-range field subscripts; the embedded code is
only ever run with valid field indices. -/
def dummyField : Field := { name := "" }

/-- `norman._store.Store`: the cell map `_data` (record → field → value),
the registered fields (`self.fields`, in registration order; the model
identifies a field by its position in this list), and one `Index` per
field (`self.indexes`). -/
structure Store where
  fields : List Field
  data : List (Rec × List (Nat × PyVal))
  indexes : List Index

namespace Store

/-- Field metadata by field position. -/
def fieldD (s : Store) (fi : Nat) : Field := s.fields.getD fi dummyField

/-- The field's index by field position. -/
def indexD (s : Store) (fi : Nat) : Index := s.indexes.getD fi Index.empty

/-- Replace the index of one field. -/
def withIndex (s : Store) (fi : Nat) (idx : Index) : Store :=
  { s with indexes := s.indexes.set fi idx }

/-- A store as built by `add_field` for each field of a fresh table: every
field registered with a fresh empty `Index`, no records. -/
def ofFields (fs : List Field) : Store :=
  ⟨fs, [], fs.map fun _ => Index.empty⟩

/-- `Store.get(record, field)`: the stored value, or the field default
when the record or the cell is absent. -/
def get (s : Store) (r : Rec) (fi : Nat) : PyVal :=
  match lookupA s.data r with
  | none => (s.fieldD fi).default
  | some m => (lookupA m fi).getD (s.fieldD fi).default

/-- `Store.has_record(record)`. -/
def hasRecord (s : Store) (r : Rec) : Bool :=
  (lookupA s.data r).isSome

/-- `Store.record_count()`. -/
def recordCount (s : Store) : Nat := s.data.length

/-- The `for field in self.fields.values()` loop of `Store.add_record`:
insert the field default into each field's index in registration order;
an exception propagates, keeping the updates already made. -/
def addRecordLoop (s : Store) (r : Rec) : Nat → Store × Option PyErr
  | 0 => (s, none)
  | n + 1 =>
    let fi := s.fields.length - (n + 1)
    match (s.indexD fi).insert (s.fieldD fi).keyf (s.fieldD fi).default r with
    | .error e => (s, some e)
    | .ok idx => addRecordLoop (s.withIndex fi idx) r n

/-- `Store.add_record(record)`: `self._data.setdefault(record, {})`, then
the per-field default insertion loop. -/
def addRecord (s : Store) (r : Rec) : Store × Option PyErr :=
  let s₀ :=
    if (lookupA s.data r).isSome then s
    else { s with data := s.data ++ [(r, [])] }
  addRecordLoop s₀ r s₀.fields.length

/-- The per-field loop of `Store.remove_record`: look up the current
value (respecting defaults) and remove it from the field's index; an
exception propagates, keeping the removals already made. -/
def removeRecordLoop (s : Store) (r : Rec) : Nat → Store × Option PyErr
  | 0 => (s, none)
  | n + 1 =>
    let fi := s.fields.length - (n + 1)
    match (s.indexD fi).remove (s.fieldD fi).keyf (s.get r fi) r with
    | .error e => (s, some e)
    | .ok idx => removeRecordLoop (s.withIndex fi idx) r n

/-- `Store.remove_record(record)`: remove each field's current value from
its index, then `del self._data[record]` (a `KeyError` when absent). -/
def removeRecord (s : Store) (r : Rec) : Store × Option PyErr :=
  match removeRecordLoop s r s.fields.length with
  | (s', some e) => (s', some e)
  | (s', none) =>
    if (lookupA s'.data r).isSome then
      ({ s' with data := delA s'.data r }, none)
    else
      (s', some .keyError)

/-- `Store.set(record, field, value)`: a no-op when `old is not value` is
false — an **identity** test, modelled as structural equality.  Otherwise
`self._data[record][field] = value` (a `KeyError` when the record was
never added) happens **first**, then `Index.remove(old)` and
`Index.insert(value)`; an exception from either leaves the cell map
already holding the new value. -/
def set (s : Store) (r : Rec) (fi : Nat) (value : PyVal) :
    Store × Option PyErr :=
  let old := s.get r fi
  if old = value then (s, none)
  else
    match lookupA s.data r with
    | none => (s, some .keyError)
    | some m =>
      let s₁ := { s with data := setA s.data r (setA m fi value) }
      match (s.indexD fi).remove (s.fieldD fi).keyf old r with
      | .error e => (s₁, some e)
      | .ok idx₁ =>
        match idx₁.insert (s.fieldD fi).keyf value r with
        | .error e => (s₁.withIndex fi idx₁, some e)
        | .ok idx₂ => (s₁.withIndex fi idx₂, none)

/-- Is the record's cell for this field unset (`field not in d`), i.e.
does the record rely on the field default? -/
def unsetAt (s : Store) (fi : Nat) (r : Rec) : Bool :=
  match lookupA s.data r with
  | none => false
  | some m => (lookupA m fi).isNone

/-- `Store.setdefault(field, value)`: when the new default differs
(Python `!=`, i.e. value equality) the code iterates the records indexed
under the old default and, for the first one relying on the default,
evaluates `index.remove(self._default, r)` — but `Store` has no
attribute `_default` (only `Field` does), so that expression raises
`AttributeError` before anything is re-homed.  When no record relies on
the default the loop body never runs and nothing happens. -/
def setdefault (s : Store) (fi : Nat) (value : PyVal) :
    Store × Option PyErr :=
  if pyEq value (s.fieldD fi).default then (s, none)
  else
    match (s.indexD fi).eqList (s.fieldD fi).keyf (s.fieldD fi).default with
    | .error e => (s, some e)
    | .ok rs =>
      if rs.any (fun r => s.unsetAt fi r) then (s, some .attributeError)
      else (s, none)

end Store

/-- `Field.default` setter: `self.owner._store.setdefault(self, value)`
followed by `self._default = value`; an exception from `setdefault`
leaves the field's default unchanged. -/
def Field.setDefault (s : Store) (fi : Nat) (value : PyVal) :
    Store × Option PyErr :=
  match Store.setdefault s fi value with
  | (s', some e) => (s', some e)
  | (s', none) =>
    ({ s' with
       fields := s'.fields.modify (fun f => { f with default := value }) fi },
     none)

/-- The `except AssertionError as err: raise ValidationError(*err.args)`
pattern used by `Table._validate`, `Table.__setattr__`, `Table.__init__`
and `TableMeta.delete`: assertion failures become `ValidationError`, any
other exception is re-raised unchanged. -/
def convertAssert : PyErr → PyErr
  | .assertionError => .validationError
  | e => e

/-- The validator loop `for validator in field.validators: value =
validator(value)` wrapped in the assertion-conversion handler. -/
def runValidators : List (PyVal → Except PyErr PyVal) → PyVal →
    Except PyErr PyVal
  | [], v => .ok v
  | f :: rest, v =>
    match f v with
    | .error e => .error (convertAssert e)
    | .ok v' => runValidators rest v'

/-- The user-overridable table hooks consulted by the embedded `Table`
code: `validate` (run after construction and after every field
assignment, together with the `validate` hooks) and `validate_delete`
(run before deletion, together with the `delete` hooks).  Both are
modelled as fallible checks of the record. -/
structure TableCfg where
  validate : Rec → Except PyErr Unit := fun _ => .ok ()
  validateDelete : Rec → Except PyErr Unit := fun _ => .ok ()

/-- `Table._assert_unique(replacevalues)`: for every unique field, take
the replacement value if given else the currently stored value, collect
`set(store.indexes[field] == value)`, intersect all of them, subtract
`self`, and fail with `ValidationError` if anything remains.  (Sets of
records are modelled as lists compared by membership; record equality is
identity.) -/
def assertUnique (s : Store) (self : Rec) (replace : List (Nat × PyVal)) :
    Except PyErr Unit := do
  let idxs := (List.range s.fields.length).filter fun fi => (s.fieldD fi).unique
  let ms ← idxs.foldlM (fun (acc : Option (List Rec)) fi => do
      let value := (lookupA replace fi).getD (s.get self fi)
      let rs ← (s.indexD fi).eqList (s.fieldD fi).keyf value
      match acc with
      | none => pure (some rs)
      | some cur => pure (some (cur.filter (· ∈ rs))))
    none
  let existing := (ms.getD []).filter (· ≠ self)
  if existing.isEmpty then pure () else throw .validationError

/-- The loop `for field in store.fields.values(): ...` of
`Table.__init__` computing the validated construction values: keyword
values (rejected for readonly fields) or field defaults, passed through
the validators. -/
def initData (s : Store) (kwargs : List (String × PyVal)) :
    Except PyErr (List (Nat × PyVal)) :=
  (List.range s.fields.length).foldlM (fun acc fi => do
      let f := s.fieldD fi
      let v ←
        match lookupA kwargs f.name with
        | some v =>
          if f.readonly then throw .validationError else pure v
        | none => pure f.default
      let v' ← runValidators f.validators v
      pure (acc ++ [(fi, v')]))
    []

/-- The `for field, value in data.items(): store.set(self, field, value)`
loop of `Table.__init__`; an exception propagates with the updates
already made kept. -/
def setAllLoop (s : Store) (r : Rec) : List (Nat × PyVal) →
    Store × Option PyErr
  | [] => (s, none)
  | (fi, v) :: rest =>
    match Store.set s r fi v with
    | (s', some e) => (s', some e)
    | (s', none) => setAllLoop s' r rest

/-- `Table.__init__(**kwargs)` creating record `r`: reject unknown
keywords (`AttributeError`), validate all values, check uniqueness if any
field is unique, `store.add_record`, store each value, then
`self._validate()`; if the final validation fails the record is removed
again and the (converted) exception re-raised. -/
def Table.new (cfg : TableCfg) (s : Store) (r : Rec)
    (kwargs : List (String × PyVal)) : Store × Option PyErr :=
  if kwargs.any (fun kv => ¬ s.fields.any (·.name = kv.1)) then
    (s, some .attributeError)
  else
    match initData s kwargs with
    | .error e => (s, some e)
    | .ok data =>
      match
        (if s.fields.any (·.unique) then assertUnique s r data else .ok ()) with
      | .error e => (s, some e)
      | .ok _ =>
        match Store.addRecord s r with
        | (s₁, some e) => (s₁, some e)
        | (s₁, none) =>
          match setAllLoop s₁ r data with
          | (s₂, some e) => (s₂, some e)
          | (s₂, none) =>
            match cfg.validate r with
            | .ok _ => (s₂, none)
            | .error e =>
              match Store.removeRecord s₂ r with
              | (s₃, some e') => (s₃, some e')
              | (s₃, none) => (s₃, some (convertAssert e))

/-- `Table.__setattr__(attr, value)` for a field attribute: run the
validators (assertion failures becoming `ValidationError`), and when the
validated value differs from the current one by Python `!=`, check
`readonly`, check uniqueness for a unique field, `store.set`, then
`self._validate()`; if that validation fails the assignment is rolled
back with `store.set(self, field, oldvalue)` and the exception
re-raised.  Assignments to non-field attributes bypass the store. -/
def Table.setattrF (cfg : TableCfg) (s : Store) (r : Rec) (attr : String)
    (value : PyVal) : Store × Option PyErr :=
  match (List.range s.fields.length).find? (fun fi => (s.fieldD fi).name = attr) with
  | none => (s, none)
  | some fi =>
    match runValidators (s.fieldD fi).validators value with
    | .error e => (s, some e)
    | .ok v =>
      let oldvalue := s.get r fi
      if pyEq oldvalue v then (s, none)
      else if (s.fieldD fi).readonly ∧ oldvalue ≠ vNotSet then
        (s, some .validationError)
      else
        match
          (if (s.fieldD fi).unique then assertUnique s r [(fi, v)]
           else .ok ()) with
        | .error e => (s, some e)
        | .ok _ =>
          match Store.set s r fi v with
          | (s₁, some e) => (s₁, some e)
          | (s₁, none) =>
            match cfg.validate r with
            | .ok _ => (s₁, none)
            | .error e =>
              match Store.set s₁ r fi oldvalue with
              | (s₂, some e') => (s₂, some e')
              | (s₂, none) => (s₂, some (convertAssert e))

/-- `TableMeta.delete` invoked for a single record, as `Query.delete`
does via `r.__class__.delete(r)`: if the record is still in the table,
run `validate_delete` and the delete hooks (modelled together by
`cfg.validateDelete`); an `AssertionError` is re-raised as
`ValidationError`, any other exception re-raised as-is, and only on
success is the record removed from the store. -/
def TableMeta.deleteOne (cfg : TableCfg) (s : Store) (r : Rec) :
    Store × Option PyErr :=
  if Store.hasRecord s r then
    match cfg.validateDelete r with
    | .error e => (s, some (convertAssert e))
    | .ok _ => Store.removeRecord s r
  else
    (s, none)

/-- `Query.delete()`: iterate the query's evaluated results (modelled as
the list `rs`) and call the table's `delete` on each; an exception from
one record propagates out of the loop, so the remaining records are not
processed. -/
def Query.deleteRun (cfg : TableCfg) (s : Store) : List Rec →
    Store × Option PyErr
  | [] => (s, none)
  | r :: rest =>
    match TableMeta.deleteOne cfg s r with
    | (s', some e) => (s', some e)
    | (s', none) => Query.deleteRun cfg s' rest

/-- The four set combinators of `norman._query` (`_and`, `_or`, `_sub`,
`_xor`). -/
inductive QOp where
  | andQ
  | orQ
  | subQ
  | xorQ
  deriving DecidableEq, Repr

/-- `_and`/`_or`/`_sub`/`_xor` applied to two evaluated result sets:
Python sets are modelled as lists compared by membership, so `&` keeps
the elements of `a` present in `b`, `|` appends the missing elements of
`b`, `-` drops the elements present in `b`, and `^` is the symmetric
difference. -/
def qopApply : QOp → List Rec → List Rec → List Rec
  | .andQ, a, b => a.filter (· ∈ b)
  | .orQ, a, b => a ++ b.filter (· ∉ a)
  | .subQ, a, b => a.filter (· ∉ b)
  | .xorQ, a, b => a.filter (· ∉ b) ++ b.filter (· ∉ a)

/-- `norman._query.Query` restricted to the expression forms the claims
use: a field-equality leaf (`Field.__eq__`, wrapping `operator.eq` on the
field's live `Index`) and the binary set combinators.  Each node carries
its `_results` cache (`None` until evaluated). -/
inductive QExpr where
  | leafEq (fi : Nat) (v : PyVal) (cache : Option (List Rec))
  | node (op : QOp) (l r : QExpr) (cache : Option (List Rec))
  deriving Repr

/-- The `_results` cache of a query node. -/
def QExpr.cacheOf : QExpr → Option (List Rec)
  | .leafEq _ _ c => c
  | .node _ _ _ c => c

/-- `Query.__call__`: unconditionally recompute, recursively re-invoking
nested `Query` operands and then applying the operator to their fresh
`_results`; `self._results = set(self._op(*args))` is the final
deduplication.  A leaf applies `operator.eq` to the field's current
index, so re-evaluation sees table mutations. -/
def QExpr.call (s : Store) : QExpr → Except PyErr QExpr
  | .leafEq fi v _ => do
    let rs ← (s.indexD fi).eqList (s.fieldD fi).keyf v
    pure (.leafEq fi v (some rs.dedup))
  | .node op l r _ => do
    let l' ← l.call s
    let r' ← r.call s
    pure (.node op l' r'
      (some ((qopApply op (l'.cacheOf.getD []) (r'.cacheOf.getD [])).dedup)))

/-- `Query.__iter__` (and hence `set(query)`): evaluate only when
`self._results is None`, otherwise return the cached results
untouched. -/
def QExpr.iterQ (s : Store) (q : QExpr) : Except PyErr (QExpr × List Rec) :=
  match q.cacheOf with
  | some rs => .ok (q, rs)
  | none => do
    let q' ← q.call s
    pure (q', q'.cacheOf.getD [])

/-- The value `Query.__call__` computes against store state `s`,
independent of any caches (the code never consults `_results` during
re-evaluation). -/
def QExpr.evalL (s : Store) : QExpr → Except PyErr (List Rec)
  | .leafEq fi v _ => do
    let rs ← (s.indexD fi).eqList (s.fieldD fi).keyf v
    pure rs.dedup
  | .node op l r _ => do
    let a ← l.evalL s
    let b ← r.evalL s
    pure ((qopApply op a b).dedup)

/-- The tri-state table slot of `_Adder.table`: `None` (no table seen
yet), `False` (conflicting tables), or a single table (tables are named
by numbers in the model). -/
inductive TVal where
  | noneT
  | falseT
  | tableT (t : Nat)
  deriving DecidableEq, Repr

/-- `norman._query._Adder`: the add-metadata carried by a query — the
originating table, the first failure reason, and the accumulated keyword
constraints. -/
structure Adder where
  table : TVal := .noneT
  reason : Option String := none
  kwargs : List (String × PyVal) := []
  deriving Repr

namespace Adder

/-- The `reason` property setter: `if not self.__reason: self.__reason =
value` — only the first reason sticks. -/
def setReason (a : Adder) (msg : String) : Adder :=
  if a.reason = none then { a with reason := some msg } else a

/-- `_Adder.set_table`: keep an equal table, refuse `None` with
`RuntimeError`, adopt a first table, and otherwise collapse to `False`
recording the failure reason. -/
def setTable (a : Adder) (t : TVal) : Adder × Option PyErr :=
  if t = a.table then (a, none)
  else if t = .noneT then (a, some .runtimeError)
  else if a.table = .noneT ∧ t ≠ .falseT then ({ a with table := t }, none)
  else (({ a with table := .falseT }).setReason "Inconsistent or invalid tables",
        none)

/-- `_Adder.add_kwargs`: a key present on both sides records a duplicate
failure reason (the model keeps a fixed message; only its presence
matters), otherwise `self.kwargs.update(kwargs)`. -/
def addKwargs (a : Adder) (kw : List (String × PyVal)) : Adder :=
  if (a.kwargs.filter fun p => (lookupA kw p.1).isSome).isEmpty then
    { a with kwargs := a.kwargs ++ kw }
  else
    a.setReason "Duplicate values"

/-- `_Adder._inherit_adder` / `_Adder.inherit`: copy the other adder's
reason (first one sticks; copying `None` changes nothing), table, and
kwargs. -/
def inherit (a : Adder) (other : Adder) : Adder × Option PyErr :=
  let a₁ := match other.reason with
    | some m => a.setReason m
    | none => a
  match a₁.setTable other.table with
  | (a₂, some e) => (a₂, some e)
  | (a₂, none) => (a₂.addKwargs other.kwargs, none)

/-- `_Adder.__call__(**kwargs)`: refuse when no single table is defined,
merge the call kwargs into a copy of the stored ones, refuse with
`TypeError` when any failure reason is recorded, and otherwise construct
the record via the table constructor (`record = self.table(**self.kwargs)`;
the `finally` block restores the adder's own kwargs, so the adder is
unchanged). -/
def callAdd (cfg : TableCfg) (s : Store) (a : Adder) (newRec : Rec)
    (kwargs : List (String × PyVal)) : Store × Option PyErr :=
  if a.table = .noneT ∨ a.table = .falseT then (s, some .typeError)
  else
    let a' := a.addKwargs kwargs
    if a'.reason.isSome then (s, some .typeError)
    else Table.new cfg s newRec a'.kwargs

end Adder

/-- The adder attached by `Field.__eq__(value)`: a fresh `_Adder` bound
to the field's owner table, with `{self.name: value}` as its constraint
(the `set_table` call on a fresh adder cannot fail). -/
def Field.eqAdder (t : Nat) (fname : String) (v : PyVal) : Adder :=
  ((({} : Adder).setTable (.tableT t)).1).addKwargs [(fname, v)]

/-- The adder of `q1 & q2` (`Query.__and__`):
`q._adder.inherit(self).inherit(other)` starting from the fresh adder of
`Query(_and, self, other)`. -/
def Query.andAdder (a b : Adder) : Adder × Option PyErr :=
  match ({} : Adder).inherit a with
  | (x, some e) => (x, some e)
  | (x, none) => x.inherit b

/-! ## Claim C1: partition of `[1, 2, 'a', 3]` under the default key -/

open PyVal

/-- Inserting the values `1`, `2`, `'a'`, `3` (records `1`, `2`, `3`, `4`
respectively) into a fresh index over a field with the default
type-ranked key. -/
def c1Insert : Except PyErr Index := do
  let i1 ← Index.insert defaultKey Index.empty (vInt 1) (1 : Rec)
  let i2 ← Index.insert defaultKey i1 (vInt 2) (2 : Rec)
  let i3 ← Index.insert defaultKey i2 (vStr "a") (3 : Rec)
  Index.insert defaultKey i3 (vInt 3) (4 : Rec)

/-- The index state `c1Insert` actually produces: all four values in the
ordered bucket (the default key ranks `'a'` as `('1str', 'a')`, which
sorts after every `('0Real', _)` key), and an empty unordered bucket. -/
def c1Idx : Index :=
  ⟨[vPair (vStr "0Real") (vInt 1), vPair (vStr "0Real") (vInt 2),
    vPair (vStr "0Real") (vInt 3), vPair (vStr "1str") (vStr "a")],
   [(1 : Rec), 2, 4, 3], []⟩

/-- Claim C1, counterexample.  The claim asserts that `'a'` is routed to
the unordered bucket and that `index > 2` yields exactly the record
holding `3` (record `4`) and never the record holding `'a'` (record
`3`).  In fact the default key succeeds on `'a'`, so `'a'` lands in the
ordered bucket (the unordered bucket is empty), and the `> 2` query
returns records `4` **and** `3`: record `3` is a member of the result,
falsifying "never the record holding `'a'`". -/
theorem C1_counterexample :
    c1Insert = .ok c1Idx ∧
    c1Idx.unordered = [] ∧
    Index.gtList defaultKey c1Idx (vInt 2) = .ok [(4 : Rec), 3] ∧
    (3 : Rec) ∈ ((Index.gtList defaultKey c1Idx (vInt 2)).toOption.getD []) :=
  ⟨rfl, rfl, rfl, by decide⟩

/-- Claim C1, amended: inserting `[1, 2, 'a', 3]` with the default
type-ranked key places **all four** values in the ordered bucket — the
numeric values sorted as `[1, 2, 3]` followed by `'a'`, since the
default key orders by type rank and `'1str'` sorts after `'0Real'` — the
unordered bucket stays empty, and `index > 2` yields the records holding
`3` and `'a'` (in that order). -/
theorem C1_amended :
    c1Insert = .ok c1Idx ∧
    c1Idx.okeys =
      [vPair (vStr "0Real") (vInt 1), vPair (vStr "0Real") (vInt 2),
       vPair (vStr "0Real") (vInt 3), vPair (vStr "1str") (vStr "a")] ∧
    c1Idx.orecs = [(1 : Rec), 2, 4, 3] ∧
    c1Idx.unordered = [] ∧
    Index.gtList defaultKey c1Idx (vInt 2) = .ok [(4 : Rec), 3] :=
  ⟨rfl, rfl, rfl, rfl, rfl⟩

/-! ## Claim C10: the unordered fallback also fires on bisect-probe
errors, making a value's bucket depend on earlier inserts -/

/-- The identity key function `key=lambda x: x`. -/
def idKey : KeyFn := fun v => .ok v

/-- Claim C10: with the identity key, `key('a')` itself succeeds —
inserting `'a'` into an **empty** index places it in the ordered bucket.
But inserting `1` first and then `'a'` routes `'a'` to the unordered
bucket: the `bisect_right` probe compares `'a'` with the existing key
`1`, which raises `TypeError`, and `Index.insert` catches
`TypeError`/`ValueError` around the key computation **and** the bisect
search.  So the bucket a value lands in depends on the keys inserted
before it. -/
theorem C10_bucket_depends_on_history :
    idKey (vStr "a") = .ok (vStr "a") ∧
    Index.insert idKey Index.empty (vStr "a") (2 : Rec) =
      .ok ⟨[vStr "a"], [(2 : Rec)], []⟩ ∧
    (do
      let i1 ← Index.insert idKey Index.empty (vInt 1) (1 : Rec)
      Index.insert idKey i1 (vStr "a") (2 : Rec) : Except PyErr Index) =
      .ok ⟨[vInt 1], [(1 : Rec)], [(vStr "a", [(vStr "a", (2 : Rec))])]⟩ ∧
    pyLt (vStr "a") (vInt 1) = .error .typeError :=
  ⟨rfl, rfl, rfl, rfl⟩

/-! ## Claims C7 and C8: `Store.set` -/

/-- `lookupA` after `setA` at the same key finds the new value. -/
theorem lookupA_setA {α β : Type} [DecidableEq α]
    (l : List (α × β)) (k : α) (v : β) : lookupA (setA l k v) k = some v := by
  induction l with
  | nil => simp [setA, lookupA]
  | cons p rest ih =>
    by_cases h : p.1 = k
    · simp [setA, h, lookupA]
    · simp [setA, h, lookupA, ih]

/-- A single-field store (default key) whose record `0` explicitly holds
the value `True`, with the index in sync. -/
def c7Store : Store :=
  ⟨[{ name := "f" }], [((0 : Rec), [(0, vBool true)])],
   [⟨[vPair (vStr "0Real") (vBool true)], [(0 : Rec)], []⟩]⟩

/-- Claim C7, counterexample.  The claim says `Store.set` compares the
new value with the current one by **value** equality (identity only for
records), leaving the cell map and index untouched when they are equal.
But the code tests `old is not value` — identity for every value.  Here
the stored value `True` and the new value `1` are `==`-equal in Python
(`pyEq` is `true`), yet `Store.set` rewrites the cell to `1` and
re-indexes it instead of leaving the state untouched. -/
theorem C7_counterexample :
    pyEq (c7Store.get 0 0) (vInt 1) = true ∧
    (Store.set c7Store 0 0 (vInt 1)).2 = none ∧
    (Store.set c7Store 0 0 (vInt 1)).1.data = [((0 : Rec), [(0, vInt 1)])] ∧
    (Store.set c7Store 0 0 (vInt 1)).1.data ≠ c7Store.data ∧
    (Store.set c7Store 0 0 (vInt 1)).1.indexes ≠ c7Store.indexes :=
  ⟨rfl, rfl, rfl, by decide, by decide⟩

/-- Claim C7, amended: `Store.set` decides whether the value differs
using **identity** equality for every value (`old is not value`), not
value equality: the cell map and index are left untouched when the new
value is the same object as the current one; values that are merely
`==`-equal (such as `True` and `1`) are treated as different and are
re-stored and re-indexed.  This theorem proves the no-op direction in
general; `C7_counterexample` exhibits the re-store on `==`-equal
values. -/
theorem C7_amended (s : Store) (r : Rec) (fi : Nat) (v : PyVal)
    (h : s.get r fi = v) : Store.set s r fi v = (s, none) := by
  simp [Store.set, h]

/-- Witness for `C7_amended` at a concrete store: re-assigning the very
object already stored is a no-op. -/
theorem C7_amended_witness :
    Store.set c7Store 0 0 (vBool true) = (c7Store, none) :=
  C7_amended c7Store 0 0 (vBool true) rfl

/-- A key function that fails with an exception that is **not**
`TypeError`/`ValueError` (e.g. a custom error) on the value `2`, and
behaves like the default key elsewhere. -/
def c8Key : KeyFn := fun v => if v = vInt 2 then .error .otherError else defaultKey v

def c8Field : Field := { name := "f", keyf := c8Key }

/-- A store over `c8Field` whose record `0` holds `1`, index in sync. -/
def c8Store : Store :=
  ⟨[c8Field], [((0 : Rec), [(0, vInt 1)])],
   [⟨[vPair (vStr "0Real") (vInt 1)], [(0 : Rec)], []⟩]⟩

/-- Claim C8, counterexample.  The claim says any exception during
`Store.set` leaves the cell map and the index mutually consistent.  But
`Store.set` assigns `self._data[record][field] = value` **before**
touching the index: when `Index.insert` of the new value fails (here the
key function raises a non-`TypeError`/`ValueError` error on `2`, which
`Index.insert` does not catch) the old value has already been removed
from the index, leaving the cell map holding `2` while the index holds
no entry at all for record `0`. -/
theorem C8_counterexample :
    Store.set c8Store 0 0 (vInt 2) =
      (⟨[c8Field], [((0 : Rec), [(0, vInt 2)])], [Index.empty]⟩,
       some .otherError) ∧
    (Store.set c8Store 0 0 (vInt 2)).1.get 0 0 = vInt 2 ∧
    (Store.set c8Store 0 0 (vInt 2)).1.indexes = [Index.empty] :=
  ⟨rfl, rfl, rfl⟩

/-- Claim C8, amended: `Store.set` is atomic only up to the cell-map
update.  An exception raised before it — the `KeyError` when the record
was never added — leaves the store completely unchanged; but once the
operation proceeds past the identity test on a present record, the cell
map already holds the new value, whether or not the subsequent index
update succeeds (so an index-update failure leaves the cell map new and
the index stale, as `C8_counterexample` exhibits). -/
theorem C8_amended (s : Store) (r : Rec) (fi : Nat) (v : PyVal) :
    (lookupA s.data r = none → s.get r fi ≠ v →
      Store.set s r fi v = (s, some .keyError)) ∧
    (∀ m, lookupA s.data r = some m → s.get r fi ≠ v →
      (Store.set s r fi v).1.get r fi = v) := by
  constructor
  · intro habs hne
    simp [Store.set, hne, habs]
  · intro m hm hne
    simp only [Store.set, hne, if_neg hne, hm]
    cases hrem : (s.indexD fi).remove (s.fieldD fi).keyf (s.get r fi) r with
    | error e => simp [hrem, Store.get, lookupA_setA]
    | ok idx₁ =>
      cases hins : idx₁.insert (s.fieldD fi).keyf v r with
      | error e => simp [hrem, hins, Store.get, Store.withIndex, lookupA_setA]
      | ok idx₂ => simp [hrem, hins, Store.get, Store.withIndex, lookupA_setA]

/-- Witness for `C8_amended`: the missing-record branch raises `KeyError`
with the store unchanged, and the present-record branch leaves the new
value in the cell map even though the index update failed. -/
theorem C8_amended_witness :
    Store.set c8Store 5 0 (vInt 2) = (c8Store, some .keyError) ∧
    (Store.set c8Store 0 0 (vInt 2)).1.get 0 0 = vInt 2 :=
  ⟨(C8_amended c8Store 5 0 (vInt 2)).1 rfl (by decide),
   (C8_amended c8Store 0 0 (vInt 2)).2 [(0, vInt 1)] rfl (by decide)⟩

/-! ## Claim C6: changing a field default (`Store.setdefault`) -/

/-- A field with default `1` and otherwise default configuration. -/
def c6Field : Field := { name := "f", default := vInt 1 }

/-- The store for a table over `c6Field` holding one record (`0`) created
with no explicit value, i.e. relying on the default: `add_record` put
the default into the index, and the cell map for the record is empty. -/
def c6Store : Store :=
  ⟨[c6Field], [((0 : Rec), [])],
   [⟨[vPair (vStr "0Real") (vInt 1)], [(0 : Rec)], []⟩]⟩

/-- Claim C6: the code path is broken.  `c6Store` is exactly what
`add_record` produces on a fresh store; record `0` relies on the default
`1`; and assigning a new default `2` (the `Field.default` setter, which
first calls `Store.setdefault`) raises `AttributeError`, because
`Store.setdefault` evaluates `index.remove(self._default, r)` for the
first default-relying record and `Store` has no attribute `_default`
(only `Field` does).  Nothing is re-homed and the default is not
updated. -/
theorem C6_setdefault_attribute_error :
    Store.addRecord (Store.ofFields [c6Field]) 0 = (c6Store, none) ∧
    Store.setdefault c6Store 0 (vInt 2) = (c6Store, some .attributeError) ∧
    Field.setDefault c6Store 0 (vInt 2) = (c6Store, some .attributeError) :=
  ⟨rfl, rfl, rfl⟩

/-! ## Claim C3: `Query.delete` under a failing per-record validation -/

/-- A table whose `validate_delete` fails (assertion-style) exactly on
record `1`. -/
def c3Cfg : TableCfg :=
  { validateDelete := fun r =>
      if r = (1 : Rec) then .error .assertionError else .ok () }

/-- A store holding records `1` and `2` of a one-field table, both
relying on the `NotSet` default (so both sit in the unset bucket of the
field's index). -/
def c3Store : Store :=
  ⟨[{ name := "f" }], [((1 : Rec), []), ((2 : Rec), [])],
   [⟨[], [], [(vNotSet, [(vNotSet, (1 : Rec)), (vNotSet, (2 : Rec))])]⟩]⟩

/-- Claim C3, counterexample.  The claim says a validation failure
aborts only that record's deletion and every other record in the batch
is still processed and deleted.  In fact `TableMeta.delete` re-raises
the converted `ValidationError`, which propagates out of
`Query.delete`'s loop: deleting the batch `[1, 2]` where record `1`
fails validation leaves record `2` (which on its own would delete
fine) still present — nothing at all is deleted. -/
theorem C3_counterexample :
    Query.deleteRun c3Cfg c3Store [1, 2] = (c3Store, some .validationError) ∧
    Store.hasRecord (Query.deleteRun c3Cfg c3Store [1, 2]).1 2 = true ∧
    (TableMeta.deleteOne c3Cfg c3Store 2).2 = none ∧
    Store.hasRecord (TableMeta.deleteOne c3Cfg c3Store 2).1 2 = false :=
  ⟨rfl, rfl, rfl, rfl⟩

/-- Claim C3, amended: an assertion-style failure in one record's
pre-delete validation is converted to `ValidationError` and propagates
out of `Query.delete`, aborting the whole remaining batch — the failing
record and every record after it in the iteration are left undeleted
(records processed before the failure stay deleted).  Partial failure is
by iteration prefix, not per-record. -/
theorem C3_amended (cfg : TableCfg) (s : Store) (r : Rec) (rest : List Rec)
    (hin : Store.hasRecord s r = true)
    (hfail : cfg.validateDelete r = .error .assertionError) :
    Query.deleteRun cfg s (r :: rest) = (s, some .validationError) := by
  simp [Query.deleteRun, TableMeta.deleteOne, hin, hfail, convertAssert]

/-- Witness for `C3_amended` at the concrete two-record batch. -/
theorem C3_amended_witness :
    Query.deleteRun c3Cfg c3Store [1, 2] = (c3Store, some .validationError) :=
  C3_amended c3Cfg c3Store 1 [2] rfl rfl

/-! ## Claim C2: uniqueness failure on attribute assignment rolls back -/

/-- A unique field with default configuration otherwise. -/
def c2Field : Field := { name := "f", unique := true }

/-- The store of a table over the unique field `f` holding two records
`r1` and `r2` with explicit values `1` and `2` respectively, the index
in sync (this is the state `Table.__init__` produces for
`T(f=1); T(f=2)`). -/
def c2Store (r1 r2 : Rec) : Store :=
  ⟨[c2Field],
   [(r1, [(0, vInt 1)]), (r2, [(0, vInt 2)])],
   [⟨[vPair (vStr "0Real") (vInt 1), vPair (vStr "0Real") (vInt 2)],
     [r1, r2], []⟩]⟩

/-- Claim C2: with two records holding unique-field values `1` and `2`,
assigning `1` to the second record's field (`Table.__setattr__`) raises
`ValidationError` from the uniqueness scan — which runs **before**
`store.set` — so the store is returned unchanged: the second record
still reads `2` and the field's index is untouched. -/
theorem C2_unique_rollback (r1 r2 : Rec) (h : r1 ≠ r2) :
    Table.setattrF {} (c2Store r1 r2) r2 "f" (vInt 1) =
      (c2Store r1 r2, some .validationError) ∧
    (Table.setattrF {} (c2Store r1 r2) r2 "f" (vInt 1)).1.get r2 0 = vInt 2 ∧
    (Table.setattrF {} (c2Store r1 r2) r2 "f" (vInt 1)).1.indexes =
      (c2Store r1 r2).indexes := by
  have h' : (r1 = r2) = False := by simp [h]
  have h'' : (r2 = r1) = False := by simp [Ne.symm h]
  have hmain : Table.setattrF {} (c2Store r1 r2) r2 "f" (vInt 1) =
      (c2Store r1 r2, some .validationError) := by
    simp [Table.setattrF, Store.get, Store.fieldD, Store.indexD, c2Store,
      c2Field, dummyField, lookupA, runValidators, pyEq, numVal,
      assertUnique, Index.eqList, bisectLeft, bisectRight, bisectLeftAux,
      bisectRightAux, pyLt, defaultKey, h', h'',
      List.range_succ, List.range_zero, List.find?, List.foldlM, List.filter,
      Bind.bind, Pure.pure, Functor.map, Except.bind, Except.map, Except.pure]
  refine ⟨hmain, ?_, ?_⟩
  · rw [hmain]
    simp [c2Store, Store.get, Store.fieldD, c2Field, dummyField, lookupA,
      h', h'']
  · rw [hmain]

/-- Witness for `C2_unique_rollback` with the concrete records `0`
and `1`. -/
theorem C2_unique_rollback_witness :
    Table.setattrF {} (c2Store 0 1) 1 "f" (vInt 1) =
      (c2Store 0 1, some .validationError) ∧
    (Table.setattrF {} (c2Store 0 1) 1 "f" (vInt 1)).1.get 1 0 = vInt 2 ∧
    (Table.setattrF {} (c2Store 0 1) 1 "f" (vInt 1)).1.indexes =
      (c2Store 0 1).indexes :=
  C2_unique_rollback 0 1 (by decide)

/-! ## Claim C5: add-metadata propagation through `&` and `.add()` -/

/-- A table (numbered `0`) with three plain fields `a`, `b`, `c`. -/
def c5Fields : List Field :=
  [{ name := "a" }, { name := "b" }, { name := "c" }]

/-- Its empty store, as built by table creation. -/
def c5Store : Store := Store.ofFields c5Fields

/-- The adder of `(Table.a == 1) & (Table.b == 2)`. -/
def c5Combined : Adder × Option PyErr :=
  Query.andAdder (Field.eqAdder 0 "a" (vInt 1)) (Field.eqAdder 0 "b" (vInt 2))

/-- The adder of `(Table.a == 1) & (Table.a == 2)` — the same field
constrained twice. -/
def c5Dup : Adder × Option PyErr :=
  Query.andAdder (Field.eqAdder 0 "a" (vInt 1)) (Field.eqAdder 0 "a" (vInt 2))

/-- Claim C5: `((Table.a == 1) & (Table.b == 2)).add(c=3)` merges the
two equality constraints without conflict and calls the table
constructor exactly as `Table(a=1, b=2, c=3)` would, creating exactly
one new record with those three field values; while
`((Table.a == 1) & (Table.a == 2)).add()` finds the duplicate key `a`
during inheritance, records a failure reason, and `.add()` raises
`TypeError` instead of picking one of the two values (no record is
created). -/
theorem C5_add_metadata :
    c5Combined =
      (⟨.tableT 0, none, [("a", vInt 1), ("b", vInt 2)]⟩, none) ∧
    Adder.callAdd {} c5Store c5Combined.1 0 [("c", vInt 3)] =
      Table.new {} c5Store 0 [("a", vInt 1), ("b", vInt 2), ("c", vInt 3)] ∧
    (Adder.callAdd {} c5Store c5Combined.1 0 [("c", vInt 3)]).2 = none ∧
    (Adder.callAdd {} c5Store c5Combined.1 0 [("c", vInt 3)]).1.recordCount
      = 1 ∧
    (Adder.callAdd {} c5Store c5Combined.1 0 [("c", vInt 3)]).1.get 0 0
      = vInt 1 ∧
    (Adder.callAdd {} c5Store c5Combined.1 0 [("c", vInt 3)]).1.get 0 1
      = vInt 2 ∧
    (Adder.callAdd {} c5Store c5Combined.1 0 [("c", vInt 3)]).1.get 0 2
      = vInt 3 ∧
    (c5Dup.1).reason = some "Duplicate values" ∧
    Adder.callAdd {} c5Store c5Dup.1 0 [] = (c5Store, some .typeError) :=
  ⟨rfl, rfl, rfl, rfl, rfl, rfl, rfl, rfl, rfl⟩

/-! ## Query evaluation lemmas shared by C4 and C9 -/

/-- A successful `Query.__call__` produces a tree whose cache holds
exactly the cache-independent evaluation of the query at that state. -/
theorem call_ok_spec (s : Store) (q q' : QExpr) (h : q.call s = .ok q') :
    ∃ rs, q'.cacheOf = some rs ∧ q.evalL s = .ok rs := by
  induction q generalizing q' with
  | leafEq fi v c =>
    simp only [QExpr.call] at h
    cases heq : (s.indexD fi).eqList (s.fieldD fi).keyf v with
    | error e =>
      rw [heq] at h
      simp [Bind.bind, Except.bind] at h
    | ok rs =>
      rw [heq] at h
      simp only [Bind.bind, Except.bind, Pure.pure, Except.pure] at h
      cases h
      exact ⟨rs.dedup, rfl,
        by simp [QExpr.evalL, heq, Bind.bind, Except.bind, Pure.pure, Except.pure]⟩
  | node op l r c ihl ihr =>
    simp only [QExpr.call] at h
    cases hl : l.call s with
    | error e =>
      rw [hl] at h
      simp [Bind.bind, Except.bind] at h
    | ok l' =>
      rw [hl] at h
      cases hr : r.call s with
      | error e =>
        rw [hr] at h
        simp [Bind.bind, Except.bind] at h
      | ok r' =>
        rw [hr] at h
        simp only [Bind.bind, Except.bind, Pure.pure, Except.pure] at h
        cases h
        obtain ⟨rsl, hcl, hel⟩ := ihl l' hl
        obtain ⟨rsr, hcr, her⟩ := ihr r' hr
        refine ⟨(qopApply op rsl rsr).dedup, ?_, ?_⟩
        · rw [show (QExpr.node op l' r'
              (some ((qopApply op (l'.cacheOf.getD []) (r'.cacheOf.getD [])).dedup))).cacheOf
              = some ((qopApply op (l'.cacheOf.getD []) (r'.cacheOf.getD [])).dedup) from rfl,
            hcl, hcr]
          rfl
        · simp [QExpr.evalL, hel, her, Bind.bind, Except.bind, Pure.pure, Except.pure]

/-- Conversely, whenever the cache-independent evaluation succeeds,
`Query.__call__` succeeds and caches exactly that result. -/
theorem evalL_ok_call (s : Store) (q : QExpr) (rs : List Rec)
    (h : q.evalL s = .ok rs) :
    ∃ q', q.call s = .ok q' ∧ q'.cacheOf = some rs := by
  induction q generalizing rs with
  | leafEq fi v c =>
    simp only [QExpr.evalL] at h
    cases heq : (s.indexD fi).eqList (s.fieldD fi).keyf v with
    | error e =>
      rw [heq] at h
      simp [Bind.bind, Except.bind] at h
    | ok rs0 =>
      rw [heq] at h
      simp only [Bind.bind, Except.bind, Pure.pure, Except.pure] at h
      cases h
      exact ⟨.leafEq fi v (some rs0.dedup),
        by simp [QExpr.call, heq, Bind.bind, Except.bind, Pure.pure, Except.pure], rfl⟩
  | node op l r c ihl ihr =>
    simp only [QExpr.evalL] at h
    cases hl : l.evalL s with
    | error e =>
      rw [hl] at h
      simp [Bind.bind, Except.bind] at h
    | ok A =>
      rw [hl] at h
      cases hr : r.evalL s with
      | error e =>
        rw [hr] at h
        simp [Bind.bind, Except.bind] at h
      | ok B =>
        rw [hr] at h
        simp only [Bind.bind, Except.bind, Pure.pure, Except.pure] at h
        cases h
        obtain ⟨l', hcl, hel⟩ := ihl A hl
        obtain ⟨r', hcr, her⟩ := ihr B hr
        refine ⟨.node op l' r' (some ((qopApply op A B).dedup)), ?_, rfl⟩
        simp only [QExpr.call, hcl, hcr, Bind.bind, Except.bind, Pure.pure, Except.pure]
        rw [hel, her]
        rfl

/-- After a successful `__iter__`, the returned tree's cache holds the
returned results. -/
theorem iterQ_cache (s : Store) (q q₀ : QExpr) (rs : List Rec)
    (h : QExpr.iterQ s q = .ok (q₀, rs)) : q₀.cacheOf = some rs := by
  unfold QExpr.iterQ at h
  cases hc : q.cacheOf with
  | some rs0 =>
    rw [hc] at h
    cases h
    exact hc
  | none =>
    rw [hc] at h
    cases hcall : q.call s with
    | error e =>
      rw [hcall] at h
      simp [Bind.bind, Except.bind] at h
    | ok q' =>
      rw [hcall] at h
      simp only [Bind.bind, Except.bind, Pure.pure, Except.pure] at h
      obtain ⟨rs0, hc0, _⟩ := call_ok_spec s q q' hcall
      cases h
      rw [hc0]
      rfl

/-! ## Claim C4: query cache stickiness and explicit refresh -/

/-- Claim C4: once a query object's cache has been populated by a first
iteration (`iterQ s q = ok (q₀, rs)`), any later iteration of the same
object returns the cached `rs` against **any** store state — table
mutations are invisible (the cache is sticky).  Explicitly calling the
query (`Query.__call__`) unconditionally recomputes, recursively
re-evaluating nested operands against the current store: whenever the
cache-independent evaluation at the new state yields `rs'`, the call
succeeds, caches exactly `rs'`, and subsequent iterations return it. -/
theorem C4_query_cache (s : Store) (q q₀ : QExpr) (rs : List Rec)
    (h : QExpr.iterQ s q = .ok (q₀, rs)) :
    (∀ s', QExpr.iterQ s' q₀ = .ok (q₀, rs)) ∧
    (∀ s' rs', QExpr.evalL s' q₀ = .ok rs' →
      ∃ q₁, QExpr.call s' q₀ = .ok q₁ ∧ q₁.cacheOf = some rs' ∧
        ∀ s'', QExpr.iterQ s'' q₁ = .ok (q₁, rs')) := by
  have hc := iterQ_cache s q q₀ rs h
  constructor
  · intro s'
    unfold QExpr.iterQ
    rw [hc]
  · intro s' rs' he
    obtain ⟨q₁, hcall, hc1⟩ := evalL_ok_call s' q₀ rs' he
    exact ⟨q₁, hcall, hc1, fun s'' => by unfold QExpr.iterQ; rw [hc1]⟩

/-- The store of a table with one plain field `a` and no records. -/
def c4S0 : Store := Store.ofFields [{ name := "a" }]

/-- The freshly constructed query `Table.a == 1` (cache unevaluated). -/
def c4Q : QExpr := .leafEq 0 (vInt 1) none

/-- The same query object after its first iteration against `c4S0`:
cache populated with the empty result. -/
def c4Q0 : QExpr := .leafEq 0 (vInt 1) (some [])

/-- The store after `Table(a=1)` creates matching record `0`. -/
def c4S1 : Store := (Table.new {} c4S0 0 [("a", vInt 1)]).1

/-- The query object after an explicit re-invocation against `c4S1`. -/
def c4Q1 : QExpr := .leafEq 0 (vInt 1) (some [(0 : Rec)])

/-- Witness for `C4_query_cache`, the scenario of the claim: iterating
`Table.a == 1` with zero matches caches `[]`; creating a matching record
succeeds; iterating the unrefreshed query object again still yields `[]`
even though a fresh evaluation now yields record `0`; calling the query
recomputes the cache to `[0]`, after which iteration shows the new
record. -/
theorem C4_query_cache_witness :
    QExpr.iterQ c4S0 c4Q = .ok (c4Q0, []) ∧
    (Table.new {} c4S0 0 [("a", vInt 1)]).2 = none ∧
    QExpr.evalL c4S1 c4Q0 = .ok [(0 : Rec)] ∧
    QExpr.iterQ c4S1 c4Q0 = .ok (c4Q0, []) ∧
    QExpr.call c4S1 c4Q0 = .ok c4Q1 ∧
    QExpr.iterQ c4S1 c4Q1 = .ok (c4Q1, [(0 : Rec)]) := by
  have main := C4_query_cache c4S0 c4Q c4Q0 [] rfl
  exact ⟨rfl, rfl, rfl, main.1 c4S1, rfl, rfl⟩

/-! ## Claim C9: set-algebra laws of the query combinators -/

/-- `set(_and(a, b))` is set intersection. -/
theorem qop_and_toFinset (a b : List Rec) :
    ((qopApply .andQ a b).dedup).toFinset = a.toFinset ∩ b.toFinset := by
  ext x
  simp [qopApply, List.mem_dedup, List.mem_filter, List.mem_toFinset]

/-- `set(_or(a, b))` is set union. -/
theorem qop_or_toFinset (a b : List Rec) :
    ((qopApply .orQ a b).dedup).toFinset = a.toFinset ∪ b.toFinset := by
  ext x
  simp [qopApply, List.mem_dedup, List.mem_filter, List.mem_append,
    List.mem_toFinset]
  tauto

/-- `set(_sub(a, b))` is set difference. -/
theorem qop_sub_toFinset (a b : List Rec) :
    ((qopApply .subQ a b).dedup).toFinset = a.toFinset \ b.toFinset := by
  ext x
  simp [qopApply, List.mem_dedup, List.mem_filter, List.mem_toFinset]

/-- Evaluating a freshly combined query (`Query(op, q1, q2)` has an
empty cache, so `set(...)` triggers `__call__`) applies the combinator
to the recursively recomputed operand results. -/
theorem iterQ_fresh_node (s : Store) (op : QOp) (q1 q2 : QExpr)
    (A B : List Rec)
    (h1 : QExpr.evalL s q1 = .ok A) (h2 : QExpr.evalL s q2 = .ok B) :
    ∃ q', QExpr.iterQ s (.node op q1 q2 none) =
      .ok (q', (qopApply op A B).dedup) := by
  have hev : QExpr.evalL s (.node op q1 q2 none) =
      .ok ((qopApply op A B).dedup) := by
    simp [QExpr.evalL, h1, h2, Bind.bind, Except.bind, Pure.pure, Except.pure]
  obtain ⟨q', hcall, hc⟩ := evalL_ok_call s _ _ hev
  refine ⟨q', ?_⟩
  unfold QExpr.iterQ
  rw [show (QExpr.node op q1 q2 none).cacheOf = none from rfl]
  simp only [hcall, Bind.bind, Except.bind, Pure.pure, Except.pure]
  rw [hc]
  rfl

/-- Claim C9: for queries `q1`, `q2` over the same table whose
evaluations at state `s` are the record sets `A` and `B`, the combined
queries satisfy the set-algebra laws: `set(q1 & q2) = set(q1) ∩
set(q2)`, `set(q1 | q2) = set(q1) ∪ set(q2)`, and `set(q1 - q2) =
set(q1) \ set(q2)` (record sets compared as finite sets; the combined
query is evaluated by its first iteration, as `set(...)` does). -/
theorem C9_set_algebra (s : Store) (q1 q2 : QExpr) (A B : List Rec)
    (h1 : QExpr.evalL s q1 = .ok A) (h2 : QExpr.evalL s q2 = .ok B) :
    (QExpr.iterQ s (.node .andQ q1 q2 none)).map (fun p => p.2.toFinset) =
      .ok (A.toFinset ∩ B.toFinset) ∧
    (QExpr.iterQ s (.node .orQ q1 q2 none)).map (fun p => p.2.toFinset) =
      .ok (A.toFinset ∪ B.toFinset) ∧
    (QExpr.iterQ s (.node .subQ q1 q2 none)).map (fun p => p.2.toFinset) =
      .ok (A.toFinset \ B.toFinset) := by
  obtain ⟨qa, ha⟩ := iterQ_fresh_node s .andQ q1 q2 A B h1 h2
  obtain ⟨qo, ho⟩ := iterQ_fresh_node s .orQ q1 q2 A B h1 h2
  obtain ⟨qs, hs⟩ := iterQ_fresh_node s .subQ q1 q2 A B h1 h2
  refine ⟨?_, ?_, ?_⟩
  · rw [ha]
    simp [Except.map, qop_and_toFinset]
  · rw [ho]
    simp [Except.map, qop_or_toFinset]
  · rw [hs]
    simp [Except.map, qop_sub_toFinset]

/-- A two-field table (`a`, `b`) with records `0`, `1`, `2` holding
`a = 1, 1, 2` and `b = 0, 3, 3`, indexes in sync. -/
def c9Store : Store :=
  ⟨[{ name := "a" }, { name := "b" }],
   [((0 : Rec), [(0, vInt 1), (1, vInt 0)]),
    ((1 : Rec), [(0, vInt 1), (1, vInt 3)]),
    ((2 : Rec), [(0, vInt 2), (1, vInt 3)])],
   [⟨[vPair (vStr "0Real") (vInt 1), vPair (vStr "0Real") (vInt 1),
      vPair (vStr "0Real") (vInt 2)], [(0 : Rec), 1, 2], []⟩,
    ⟨[vPair (vStr "0Real") (vInt 0), vPair (vStr "0Real") (vInt 3),
      vPair (vStr "0Real") (vInt 3)], [(0 : Rec), 1, 2], []⟩]⟩

/-- `Table.a == 1`, matching records `0` and `1`. -/
def c9Q1 : QExpr := .leafEq 0 (vInt 1) none

/-- `Table.b == 3`, matching records `1` and `2`. -/
def c9Q2 : QExpr := .leafEq 1 (vInt 3) none

/-- Witness for `C9_set_algebra` at a concrete store: with
`set(q1) = {0, 1}` and `set(q2) = {1, 2}`, the combinators yield
`{1}`, `{0, 1, 2}` and `{0}`. -/
theorem C9_set_algebra_witness :
    (QExpr.iterQ c9Store (.node .andQ c9Q1 c9Q2 none)).map
        (fun p => p.2.toFinset) = .ok {1} ∧
    (QExpr.iterQ c9Store (.node .orQ c9Q1 c9Q2 none)).map
        (fun p => p.2.toFinset) = .ok {0, 1, 2} ∧
    (QExpr.iterQ c9Store (.node .subQ c9Q1 c9Q2 none)).map
        (fun p => p.2.toFinset) = .ok {0} := by
  have main := C9_set_algebra c9Store c9Q1 c9Q2 [0, 1] [1, 2] rfl rfl
  refine ⟨?_, ?_, ?_⟩
  · rw [main.1]
    exact congrArg Except.ok (by decide)
  · rw [main.2.1]
    exact congrArg Except.ok (by decide)
  · rw [main.2.2]
    exact congrArg Except.ok (by decide)

end Norman
